import Mathlib

/-!
Shallow embedding of the Descify metadata backend
(`src-tauri/src/services/exiftool.rs`, `src-tauri/src/commands/metadata.rs`,
`src-tauri/src/lib.rs`) and proofs about it.

Strings are modelled by Lean `String`; the character-level keyword
splitting algorithm is modelled on `List Char` (Rust `&str` operations
`split(',')`, `trim`, `is_empty` become structural recursions there).
The filesystem, the process spawner, and the JSON parser are external
effects; they are modelled as explicit oracle parameters, and each
effectful function returns, besides its result, the command it spawned
(if any), so that "no process is spawned" is expressible.
-/

/-- Rust `str::split(',')`: split a character list at every comma.
`splitComma [] = [[]]`, matching `"".split(',')` yielding one empty piece. -/
def splitComma : List Char → List (List Char)
  | [] => [[]]
  | c :: rest =>
    if c = ',' then [] :: splitComma rest
    else
      match splitComma rest with
      | s :: ss => (c :: s) :: ss
      | [] => [[c]]

/-- Rust `str::trim` on a character list: drop whitespace from both ends. -/
def trimChars (l : List Char) : List Char :=
  ((l.dropWhile Char.isWhitespace).reverse.dropWhile Char.isWhitespace).reverse

/-- The keyword transformation of `build_exiftool_command`
(`exiftool.rs` lines 69-73): split on commas, trim each piece,
drop the empty pieces. -/
def splitTrimDrop (l : List Char) : List (List Char) :=
  ((splitComma l).map trimChars).filter (fun k => !k.isEmpty)

/-- Rust `Vec::join` with a separator, on character lists. -/
def joinSep (sep : List Char) : List (List Char) → List Char
  | [] => []
  | [x] => x
  | x :: xs => x ++ sep ++ joinSep sep xs

/-- Rust `str::trim` lifted back to `String`. -/
def rustTrim (s : String) : String := ⟨trimChars s.data⟩

/-- The keyword list of `build_exiftool_command`, as `String`s. -/
def keywordSplitS (s : String) : List String :=
  (splitTrimDrop s.data).map (fun l => (⟨l⟩ : String))

/-! Data model (`models/metadata.rs`) -/

/-- Structure `EmbedMetadataRequest` from `models/metadata.rs`. -/
structure EmbedMetadataRequest where
  file_path : String
  title : Option String
  description : Option String
  keywords : Option String
deriving DecidableEq, Repr

/-- Structure `EmbedMetadataResult` from `models/metadata.rs`. -/
structure EmbedMetadataResult where
  success : Bool
  message : String
  file_path : String
deriving DecidableEq, Repr

/-- Structure `ExifData` from `models/metadata.rs`. -/
structure ExifData where
  file_path : String
  title : Option String
  description : Option String
  keywords : Option String
deriving DecidableEq, Repr

/-! Effect oracles.

The filesystem, the location of the running executable, the platform,
the process spawner and the JSON parser are outside the program; each is
an explicit parameter of the embedded functions. -/

/-- Filesystem oracle: `Path::exists` and `Path::is_file`. -/
structure FS where
  pathExists : String → Bool
  isFile : String → Bool

/-- Environment oracle: the filesystem, the parent directory of the
running executable (`std::env::current_exe` composed with `parent`,
which the code reduces to a single `Result`), and the platform flag. -/
structure Env where
  fs : FS
  currentExeParent : Except Unit String
  isWindows : Bool

/-- Rust `Path::join` with a relative component, in the Unix spelling. -/
def pathJoin (dir name : String) : String := dir ++ "/" ++ name

/-- Outcome of a completed child process (`std::process::Output`):
exit code (`None` when killed by a signal), captured stdout and stderr
already decoded as text. `ExitStatus::success()` is `exitCode = some 0`. -/
structure ProcOutput where
  exitCode : Option Int
  stdout : String
  stderr : String

/-- A spawn failure (`std::io::Error`): whether its kind is `NotFound`,
and its display text. -/
structure SpawnError where
  isNotFound : Bool
  msg : String

/-- A fully assembled child-process invocation (`std::process::Command`):
the program and its argument list, in order. -/
structure Cmd where
  program : String
  args : List String
deriving DecidableEq, Repr

/-- Process oracle: what `Command::output()` would return if called. -/
def ProcOracle := Except SpawnError ProcOutput

/-- Rust `{:?}` of a `PathBuf`: the path between double quotes. -/
def debugQuote (p : String) : String := "\"" ++ p ++ "\""

/-! Functions of `services/exiftool.rs`. -/

/-- Function `get_exiftool_path` (`exiftool.rs` lines 7-41): bundled next to the
executable, then in a `resources` subdirectory, then the bare name. -/
def get_exiftool_path (env : Env) : String :=
  let exiftool_name := if env.isWindows then "exiftool.exe" else "exiftool"
  match env.currentExeParent with
  | .ok resource_dir =>
    let bundled_path := pathJoin resource_dir exiftool_name
    if env.fs.pathExists bundled_path then bundled_path
    else
      let resources_path := pathJoin (pathJoin resource_dir "resources") exiftool_name
      if env.fs.pathExists resources_path then resources_path
      else "exiftool"
  | .error _ => "exiftool"

/-- Function `build_exiftool_command` (`exiftool.rs` lines 44-94). -/
def build_exiftool_command (exiftool_path : String) (request : EmbedMetadataRequest) : Cmd :=
  ⟨exiftool_path,
    (match request.title with
     | some title =>
       if rustTrim title == "" then []
       else ["-XMP:Title=" ++ title, "-IPTC:ObjectName=" ++ title,
             "-EXIF:ImageDescription=" ++ title]
     | none => [])
    ++
    (match request.description with
     | some description =>
       if rustTrim description == "" then []
       else ["-XMP:Description=" ++ description, "-EXIF:ImageDescription=" ++ description,
             "-IPTC:Caption-Abstract=" ++ description]
     | none => [])
    ++
    (match request.keywords with
     | some keywords =>
       if rustTrim keywords == "" then []
       else
         let keyword_list := keywordSplitS keywords
         if keyword_list.isEmpty then []
         else keyword_list.map (fun k => "-XMP:Subject=" ++ k) ++
              ["-IPTC:Keywords=" ++ keywords]
     | none => [])
    ++ ["-overwrite_original", request.file_path]⟩

/-- Function `execute_exiftool` (`exiftool.rs` lines 97-150). -/
def execute_exiftool (outcome : ProcOracle) (request : EmbedMetadataRequest)
    (exiftool_path : String) : Except String EmbedMetadataResult :=
  match outcome with
  | .ok output =>
    let stderr := output.stderr
    if output.exitCode == some 0 then
      .ok ⟨true,
        "Metadata successfully embedded" ++
          (if stderr ≠ "" then " Warning: " ++ stderr else ""),
        request.file_path⟩
    else
      .ok ⟨false,
        "Failed to embed metadata. Exit code: " ++ toString (output.exitCode.getD (-1)) ++
          ". Stderr: " ++ stderr,
        request.file_path⟩
  | .error e =>
    let error_msg :=
      if e.isNotFound then
        "Failed to execute exiftool: " ++ e.msg ++
          " - ExifTool not found. Please install ExifTool or ensure it's bundled with the application. Tried path: " ++
          debugQuote exiftool_path
      else "Failed to execute exiftool: " ++ e.msg
    .ok ⟨false, error_msg, request.file_path⟩

/-- Function `validate_file` (`exiftool.rs` lines 153-175). -/
def validate_file (fs : FS) (file_path : String) : Option EmbedMetadataResult :=
  if !fs.pathExists file_path then
    some ⟨false, "File does not exist: " ++ file_path, file_path⟩
  else if !fs.isFile file_path then
    some ⟨false, "Path is not a file: " ++ file_path, file_path⟩
  else none

/-- Function `has_metadata` (`exiftool.rs` lines 178-180). -/
def has_metadata (request : EmbedMetadataRequest) : Bool :=
  request.title.isSome || request.description.isSome || request.keywords.isSome

/-! JSON values (the fragment of `serde_json::Value` the code uses). -/

/-- A parsed JSON value. Numbers are modelled by `Int`; the code never
inspects a numeric value, only asks `as_str` / `as_array` of values. -/
inductive Json where
  | null
  | bool (b : Bool)
  | num (n : Int)
  | str (s : String)
  | arr (elems : List Json)
  | obj (fields : List (String × Json))

/-- Method `Value::get(key)` on an object; `None` on every other value. -/
def Json.get (j : Json) (key : String) : Option Json :=
  match j with
  | .obj fields => (fields.find? (fun f => f.1 == key)).map (fun f => f.2)
  | _ => none

/-- Method `Value::as_str`. -/
def Json.asStr : Json → Option String
  | .str s => some s
  | _ => none

/-- Method `Value::as_array`. -/
def Json.asArray : Json → Option (List Json)
  | .arr elems => some elems
  | _ => none

/-- Title probe chain of `read_exif_metadata` (`exiftool.rs` lines 236-250). -/
def extractTitle (metadata : Json) : Option String :=
  (metadata.get "XMP:Title" <|> metadata.get "Title" <|>
   metadata.get "IPTC:ObjectName" <|> metadata.get "ObjectName" <|>
   metadata.get "EXIF:ImageDescription" <|> metadata.get "ImageDescription" <|>
   metadata.get "PNG:Title" <|> metadata.get "MWG:Title").bind Json.asStr

/-- Description probe chain of `read_exif_metadata` (`exiftool.rs` lines 253-268). -/
def extractDescription (metadata : Json) : Option String :=
  (metadata.get "XMP:Description" <|> metadata.get "Description" <|>
   metadata.get "IPTC:Caption-Abstract" <|> metadata.get "Caption-Abstract" <|>
   metadata.get "CaptionAbstract" <|>
   metadata.get "EXIF:ImageDescription" <|> metadata.get "ImageDescription" <|>
   metadata.get "PNG:Description" <|> metadata.get "MWG:Description").bind Json.asStr

/-- First present candidate of the keywords probe chain
(`exiftool.rs` lines 271-280). -/
def keywordCandidate (metadata : Json) : Option Json :=
  metadata.get "XMP:Subject" <|> metadata.get "Subject" <|>
  metadata.get "IPTC:Keywords" <|> metadata.get "Keywords" <|>
  metadata.get "XMP-dc:Subject" <|> metadata.get "dc:Subject"

/-- Keyword extraction of `read_exif_metadata` (`exiftool.rs` lines 271-297):
the closure joins the string entries of an array value with ", " when at
least one entry is a string, passes a string value through verbatim, and
yields `none` otherwise. -/
def extractKeywords (metadata : Json) : Option String :=
  (keywordCandidate metadata).bind (fun v =>
    match v.asArray with
    | some arr =>
      let kw_list := arr.filterMap Json.asStr
      if !kw_list.isEmpty then some (String.intercalate ", " kw_list) else none
    | none =>
      match v.asStr with
      | some s => some s
      | none => none)

/-! Effectful operations.

Each effectful function returns its result together with the child
process it spawned (`none` when no process was spawned). -/

/-- Result-and-effect of one run of an embed operation. -/
structure EmbedOutcome where
  result : Except String EmbedMetadataResult
  spawned : Option Cmd
deriving Repr

/-- Result-and-effect of one run of the read operation. -/
structure ReadOutcome where
  result : Except String ExifData
  spawned : Option Cmd
deriving Repr

/-- Command `embed_metadata` from `commands/metadata.rs` (lines 9-30): validate,
short-circuit when no metadata is present, else build and execute. -/
def embed_metadata (env : Env) (proc : ProcOracle) (request : EmbedMetadataRequest) :
    EmbedOutcome :=
  match validate_file env.fs request.file_path with
  | some error_result => ⟨.ok error_result, none⟩
  | none =>
    if !has_metadata request then
      ⟨.ok ⟨true, "No metadata provided to embed", request.file_path⟩, none⟩
    else
      let exiftool_path := get_exiftool_path env
      let cmd := build_exiftool_command exiftool_path request
      ⟨execute_exiftool proc request exiftool_path, some cmd⟩

/-- The older inline `embed_metadata` from `lib.rs` (lines 59-193),
transcribed independently of the modular version: it validates, builds
the argument list, then checks for the all-absent request, and only
afterwards appends the overwrite flag and the path and spawns. -/
def lib_embed_metadata (env : Env) (proc : ProcOracle) (request : EmbedMetadataRequest) :
    EmbedOutcome :=
  if !env.fs.pathExists request.file_path then
    ⟨.ok ⟨false, "File does not exist: " ++ request.file_path, request.file_path⟩, none⟩
  else if !env.fs.isFile request.file_path then
    ⟨.ok ⟨false, "Path is not a file: " ++ request.file_path, request.file_path⟩, none⟩
  else
    let exiftool_path := get_exiftool_path env
    let tag_args :=
      (match request.title with
       | some title =>
         if rustTrim title == "" then []
         else ["-XMP:Title=" ++ title, "-IPTC:ObjectName=" ++ title,
               "-EXIF:ImageDescription=" ++ title]
       | none => [])
      ++
      (match request.description with
       | some description =>
         if rustTrim description == "" then []
         else ["-XMP:Description=" ++ description, "-EXIF:ImageDescription=" ++ description,
               "-IPTC:Caption-Abstract=" ++ description]
       | none => [])
      ++
      (match request.keywords with
       | some keywords =>
         if rustTrim keywords == "" then []
         else
           let keyword_list := keywordSplitS keywords
           if keyword_list.isEmpty then []
           else keyword_list.map (fun k => "-XMP:Subject=" ++ k) ++
                ["-IPTC:Keywords=" ++ keywords]
       | none => [])
    if request.title == none && request.description == none && request.keywords == none then
      ⟨.ok ⟨true, "No metadata provided to embed", request.file_path⟩, none⟩
    else
      let cmd : Cmd := ⟨exiftool_path, tag_args ++ ["-overwrite_original", request.file_path]⟩
      ⟨match proc with
       | .ok output =>
         let stderr := output.stderr
         if output.exitCode == some 0 then
           .ok ⟨true,
             "Metadata successfully embedded" ++
               (if stderr ≠ "" then " Warning: " ++ stderr else ""),
             request.file_path⟩
         else
           .ok ⟨false,
             "Failed to embed metadata. Exit code: " ++ toString (output.exitCode.getD (-1)) ++
               ". Stderr: " ++ stderr,
             request.file_path⟩
       | .error e =>
         let error_msg :=
           if e.isNotFound then
             "Failed to execute exiftool: " ++ e.msg ++
               " - ExifTool not found. Please install ExifTool or ensure it's bundled with the application. Tried path: " ++
               debugQuote exiftool_path
           else "Failed to execute exiftool: " ++ e.msg
         .ok ⟨false, error_msg, request.file_path⟩,
       some cmd⟩

/-- Function `read_exif_metadata` (`exiftool.rs` lines 183-323). `parseJson` is
the `serde_json::from_str` oracle (`.error e` carries the parse error's
display text); `proc` is the process oracle for the `-json -n` call. -/
def read_exif_metadata (env : Env) (parseJson : String → Except String Json)
    (proc : ProcOracle) (file_path : String) : ReadOutcome :=
  if !env.fs.pathExists file_path then
    ⟨.error ("File does not exist: " ++ file_path), none⟩
  else if !env.fs.isFile file_path then
    ⟨.error ("Path is not a file: " ++ file_path), none⟩
  else
    let exiftool_path := get_exiftool_path env
    let cmd : Cmd := ⟨exiftool_path, ["-json", "-n", file_path]⟩
    match proc with
    | .ok output =>
      if !(output.exitCode == some 0) then
        ⟨.error ("ExifTool failed: " ++ output.stderr), some cmd⟩
      else
        match parseJson output.stdout with
        | .error e => ⟨.error ("Failed to parse ExifTool output: " ++ e), some cmd⟩
        | .ok json_data =>
          match json_data.asArray.bind List.head? with
          | none => ⟨.ok ⟨file_path, none, none, none⟩, some cmd⟩
          | some metadata =>
            ⟨.ok ⟨file_path, extractTitle metadata, extractDescription metadata,
                  extractKeywords metadata⟩, some cmd⟩
    | .error e =>
      if e.isNotFound then
        ⟨.error ("ExifTool not found. Tried path: " ++ debugQuote exiftool_path), some cmd⟩
      else
        ⟨.error ("Failed to execute ExifTool: " ++ e.msg), some cmd⟩

/-! Theorems. -/

/-- Claim C1: for every request whose title, description and keywords are
all absent and whose file path passes validation, `embed_metadata`
returns success with message exactly "No metadata provided to embed",
and no external process is spawned. -/
theorem embed_metadata_no_metadata (env : Env) (proc : ProcOracle)
    (request : EmbedMetadataRequest)
    (ht : request.title = none) (hd : request.description = none)
    (hk : request.keywords = none)
    (hv : validate_file env.fs request.file_path = none) :
    embed_metadata env proc request =
      ⟨.ok ⟨true, "No metadata provided to embed", request.file_path⟩, none⟩ := by
  simp [embed_metadata, hv, has_metadata, ht, hd, hk]

/-- Witness for C1: a concrete all-absent request on a filesystem where
the path validates. -/
theorem embed_metadata_no_metadata_witness :
    embed_metadata ⟨⟨fun _ => true, fun _ => true⟩, .error (), false⟩
        (.error ⟨true, "spawn error"⟩) ⟨"photo.jpg", none, none, none⟩ =
      ⟨.ok ⟨true, "No metadata provided to embed", "photo.jpg"⟩, none⟩ :=
  embed_metadata_no_metadata _ _ _ rfl rfl rfl rfl

/-- Claim C2: for every request whose only present field is
`title = "Sunset"`, the built argument list is exactly the three
tag assignments carrying "Sunset", the overwrite flag, and the file
path, in that order. -/
theorem build_exiftool_command_title_sunset (exiftool_path file_path : String) :
    (build_exiftool_command exiftool_path ⟨file_path, some "Sunset", none, none⟩).args =
      ["-XMP:Title=Sunset", "-IPTC:ObjectName=Sunset", "-EXIF:ImageDescription=Sunset",
       "-overwrite_original", file_path] := rfl

/-- Claim C4: for a path that does not exist, `embed_metadata` returns a
failure result whose message is "File does not exist: " followed by the
path (so it mentions "does not exist" and echoes the path), and
`read_exif_metadata` returns the same text as a hard error; neither
spawns a child process. -/
theorem missing_file_reported_no_spawn (env : Env) (proc : ProcOracle)
    (parseJson : String → Except String Json) (request : EmbedMetadataRequest)
    (hp : env.fs.pathExists request.file_path = false) :
    embed_metadata env proc request =
      ⟨.ok ⟨false, "File does not exist: " ++ request.file_path, request.file_path⟩, none⟩ ∧
    read_exif_metadata env parseJson proc request.file_path =
      ⟨.error ("File does not exist: " ++ request.file_path), none⟩ := by
  constructor
  · simp [embed_metadata, validate_file, hp]
  · simp [read_exif_metadata, hp]

/-- Witness for C4: a concrete request on an empty filesystem. -/
theorem missing_file_reported_no_spawn_witness :
    embed_metadata ⟨⟨fun _ => false, fun _ => false⟩, .error (), false⟩
        (.error ⟨true, "spawn error"⟩) ⟨"gone.jpg", some "T", none, none⟩ =
      ⟨.ok ⟨false, "File does not exist: gone.jpg", "gone.jpg"⟩, none⟩ ∧
    read_exif_metadata ⟨⟨fun _ => false, fun _ => false⟩, .error (), false⟩
        (fun _ => .error "parse") (.error ⟨true, "spawn error"⟩) "gone.jpg" =
      ⟨.error "File does not exist: gone.jpg", none⟩ :=
  missing_file_reported_no_spawn _ _ _ ⟨"gone.jpg", some "T", none, none⟩ rfl

/-- Claim C5: a completed invocation with a non-zero exit code yields a
failure result whose message carries the exit code and the stderr text;
exit code zero yields success with message "Metadata successfully
embedded", with the stderr text appended as a warning suffix exactly
when stderr is non-empty. -/
theorem execute_exiftool_exit_status (request : EmbedMetadataRequest)
    (exiftool_path : String) (output : ProcOutput) :
    (∀ c : Int, output.exitCode = some c → c ≠ 0 →
      execute_exiftool (.ok output) request exiftool_path =
        .ok ⟨false, "Failed to embed metadata. Exit code: " ++ toString c ++
              ". Stderr: " ++ output.stderr, request.file_path⟩) ∧
    (output.exitCode = some 0 → output.stderr = "" →
      execute_exiftool (.ok output) request exiftool_path =
        .ok ⟨true, "Metadata successfully embedded", request.file_path⟩) ∧
    (output.exitCode = some 0 → output.stderr ≠ "" →
      execute_exiftool (.ok output) request exiftool_path =
        .ok ⟨true, "Metadata successfully embedded Warning: " ++ output.stderr,
              request.file_path⟩) := by
  refine ⟨?_, ?_, ?_⟩
  · intro c hc hne
    simp [execute_exiftool, hc, hne]
  · intro hc hs
    simp [execute_exiftool, hc, hs]
  · intro hc hs
    simp only [execute_exiftool, hc, hs]
    simp only [beq_self_eq_true, if_true, ne_eq, hs, not_false_eq_true, if_pos]
    rw [← String.append_assoc]
    rfl

/-- Witness for C5: concrete invocations exercising exit code 2, a clean
success and a success with a warning. -/
theorem execute_exiftool_exit_status_witness :
    execute_exiftool (.ok ⟨some 2, "", "bad tag"⟩) ⟨"f.jpg", some "T", none, none⟩ "exiftool" =
      .ok ⟨false, "Failed to embed metadata. Exit code: 2. Stderr: bad tag", "f.jpg"⟩ ∧
    execute_exiftool (.ok ⟨some 0, "", ""⟩) ⟨"f.jpg", some "T", none, none⟩ "exiftool" =
      .ok ⟨true, "Metadata successfully embedded", "f.jpg"⟩ ∧
    execute_exiftool (.ok ⟨some 0, "", "minor warning"⟩) ⟨"f.jpg", some "T", none, none⟩ "exiftool" =
      .ok ⟨true, "Metadata successfully embedded Warning: minor warning", "f.jpg"⟩ :=
  ⟨(execute_exiftool_exit_status ⟨"f.jpg", some "T", none, none⟩ "exiftool"
      ⟨some 2, "", "bad tag"⟩).1 2 rfl (by decide),
   (execute_exiftool_exit_status ⟨"f.jpg", some "T", none, none⟩ "exiftool"
      ⟨some 0, "", ""⟩).2.1 rfl rfl,
   (execute_exiftool_exit_status ⟨"f.jpg", some "T", none, none⟩ "exiftool"
      ⟨some 0, "", "minor warning"⟩).2.2 rfl (by decide)⟩

/-- Splitting always yields at least one piece. -/
theorem splitComma_ne_nil (l : List Char) : splitComma l ≠ [] := by
  induction l with
  | nil => simp [splitComma]
  | cons c rest ih =>
    simp only [splitComma]
    split
    · simp
    · cases h : splitComma rest with
      | nil => simp
      | cons s ss => simp

/-- No piece produced by splitting contains the separator. -/
theorem mem_splitComma_not_comma (l : List Char) (y : List Char)
    (hy : y ∈ splitComma l) : ',' ∉ y := by
  induction l generalizing y with
  | nil =>
    simp only [splitComma, List.mem_singleton] at hy
    subst hy
    simp
  | cons c rest ih =>
    simp only [splitComma] at hy
    by_cases hc : c = ','
    · rw [if_pos hc] at hy
      rcases List.mem_cons.mp hy with rfl | hy
      · simp
      · exact ih y hy
    · rw [if_neg hc] at hy
      cases h : splitComma rest with
      | nil => exact absurd h (splitComma_ne_nil rest)
      | cons s ss =>
        rw [h] at hy
        rcases List.mem_cons.mp hy with rfl | hy
        · intro hmem
          rcases List.mem_cons.mp hmem with h1 | h1
          · exact hc h1.symm
          · exact ih s (h ▸ List.mem_cons_self s ss) h1
        · exact ih y (h ▸ List.mem_cons.mpr (Or.inr hy))

/-- A comma-free list splits into the single piece that is itself. -/
theorem splitComma_no_comma (a : List Char) (ha : ',' ∉ a) : splitComma a = [a] := by
  induction a with
  | nil => rfl
  | cons c rest ih =>
    have hc : ¬(c = ',') := fun h => ha (by simp [h])
    have hrest : ',' ∉ rest := fun hm => ha (List.mem_cons.mpr (Or.inr hm))
    simp only [splitComma, if_neg hc, ih hrest]

/-- Splitting distributes over a comma that follows a comma-free chunk. -/
theorem splitComma_append (a r : List Char) (ha : ',' ∉ a) :
    splitComma (a ++ ',' :: r) = a :: splitComma r := by
  induction a with
  | nil => simp [splitComma]
  | cons c a' ih =>
    have hc : ¬(c = ',') := fun h => ha (by simp [h])
    have ha2 : ',' ∉ a' := fun hm => ha (List.mem_cons.mpr (Or.inr hm))
    simp only [List.cons_append, splitComma, if_neg hc, List.append_eq, ih ha2]

/-- Dropping a satisfied run twice is the same as dropping it once. -/
theorem dropWhile_twice {α : Type} (p : α → Bool) (l : List α) :
    (l.dropWhile p).dropWhile p = l.dropWhile p := by
  induction l with
  | nil => simp
  | cons c rest ih =>
    by_cases hc : p c
    · simp [List.dropWhile_cons, hc, ih]
    · simp [List.dropWhile_cons, hc]

/-- The head surviving `dropWhile` fails the predicate. -/
theorem dropWhile_head_false {α : Type} (p : α → Bool) (l : List α) (c : α) (t : List α)
    (h : l.dropWhile p = c :: t) : p c = false := by
  induction l with
  | nil => simp at h
  | cons x xs ih =>
    rw [List.dropWhile_cons] at h
    by_cases hx : p x
    · exact ih (by simpa [hx] using h)
    · rw [if_neg (by simpa using hx)] at h
      cases h
      simpa using hx

/-- Function `dropWhile` passes over a trailing element that fails the predicate. -/
theorem dropWhile_append_last {α : Type} (p : α → Bool) (r : List α) (c : α)
    (hc : p c = false) : (r ++ [c]).dropWhile p = r.dropWhile p ++ [c] := by
  induction r with
  | nil => simp [List.dropWhile_cons, hc]
  | cons x xs ih =>
    by_cases hx : p x
    · simp [List.dropWhile_cons, hx, ih]
    · simp [List.dropWhile_cons, hx]

/-- Trimming drops a leading whitespace character. -/
theorem trimChars_cons_ws (c : Char) (hcw : c.isWhitespace = true) (l : List Char) :
    trimChars (c :: l) = trimChars l := by
  simp [trimChars, List.dropWhile_cons, hcw]

/-- A trimmed list has no leading whitespace left. -/
theorem trimChars_no_leading (l : List Char) :
    (trimChars l).dropWhile Char.isWhitespace = trimChars l := by
  cases h : l.dropWhile Char.isWhitespace with
  | nil => simp [trimChars, h]
  | cons c t =>
    have hc : c.isWhitespace = false := dropWhile_head_false _ l c t h
    rw [trimChars, h, List.reverse_cons, dropWhile_append_last _ _ _ hc,
      List.reverse_append]
    simp [List.dropWhile_cons, hc]

/-- Rust `trim` is idempotent. -/
theorem trimChars_idem (l : List Char) : trimChars (trimChars l) = trimChars l := by
  have h1 : (trimChars l).dropWhile Char.isWhitespace = trimChars l :=
    trimChars_no_leading l
  have h2 : (trimChars l).reverse =
      ((l.dropWhile Char.isWhitespace).reverse).dropWhile Char.isWhitespace := by
    simp [trimChars]
  calc trimChars (trimChars l)
      = (((trimChars l).dropWhile Char.isWhitespace).reverse.dropWhile
          Char.isWhitespace).reverse := rfl
    _ = ((trimChars l).reverse.dropWhile Char.isWhitespace).reverse := by rw [h1]
    _ = trimChars l := by rw [h2, dropWhile_twice]; simp [trimChars]

/-- Every character of a trimmed list is a character of the original. -/
theorem mem_of_mem_trimChars (l : List Char) (c : Char) (h : c ∈ trimChars l) :
    c ∈ l := by
  unfold trimChars at h
  rw [List.mem_reverse] at h
  have h2 := (List.dropWhile_sublist Char.isWhitespace).mem h
  rw [List.mem_reverse] at h2
  exact (List.dropWhile_sublist Char.isWhitespace).mem h2

/-- Every piece of the split-trim-drop output is non-empty, already
trimmed, and comma-free. -/
theorem splitTrimDrop_mem_props (l : List Char) (x : List Char)
    (hx : x ∈ splitTrimDrop l) : x ≠ [] ∧ trimChars x = x ∧ ',' ∉ x := by
  unfold splitTrimDrop at hx
  obtain ⟨hx1, hx2⟩ := List.mem_filter.mp hx
  obtain ⟨y, hy, rfl⟩ := List.mem_map.mp hx1
  refine ⟨?_, trimChars_idem y, ?_⟩
  · intro h
    rw [h] at hx2
    simp at hx2
  · intro hc
    exact mem_splitComma_not_comma l y hy (mem_of_mem_trimChars y ',' hc)

/-- Split-trim-drop recovers any non-empty list of non-empty, trimmed,
comma-free pieces from its ", "-join. -/
theorem splitTrimDrop_joinSep (L : List (List Char))
    (hprops : ∀ x ∈ L, x ≠ [] ∧ trimChars x = x ∧ ',' ∉ x) (hL : L ≠ []) :
    splitTrimDrop (joinSep [',', ' '] L) = L := by
  induction L with
  | nil => exact absurd rfl hL
  | cons a L' ih =>
    obtain ⟨ha1, ha2, ha3⟩ := hprops a (List.mem_cons_self a L')
    cases L' with
    | nil =>
      show splitTrimDrop a = [a]
      unfold splitTrimDrop
      rw [splitComma_no_comma a ha3]
      simp [ha2, ha1]
    | cons b t =>
      have hJ := ih (fun x hx => hprops x (List.mem_cons.mpr (Or.inr hx))) (by simp)
      have hjoin : joinSep [',', ' '] (a :: b :: t) =
          a ++ ',' :: (' ' :: joinSep [',', ' '] (b :: t)) := by
        simp [joinSep]
      unfold splitTrimDrop
      rw [hjoin, splitComma_append a _ ha3]
      cases hsp : splitComma (joinSep [',', ' '] (b :: t)) with
      | nil => exact absurd hsp (splitComma_ne_nil _)
      | cons hd tl =>
        have hspace : splitComma (' ' :: joinSep [',', ' '] (b :: t)) =
            (' ' :: hd) :: tl := by
          simp only [splitComma, if_neg (by decide : ¬(' ' = ',')), hsp]
        rw [hspace]
        unfold splitTrimDrop at hJ
        rw [hsp] at hJ
        simp only [List.map_cons, List.filter_cons] at hJ ⊢
        rw [ha2, trimChars_cons_ws ' ' (by decide) hd]
        have hane : (!a.isEmpty) = true := by
          simp [List.isEmpty_iff, ha1]
        rw [if_pos hane]
        rw [hJ]

/-- Claim C8: the split-trim-drop keyword transformation is idempotent:
when it yields a non-empty list, re-applying it to the list rejoined
with ", " yields the same list. -/
theorem splitTrimDrop_idem (s : List Char) (h : splitTrimDrop s ≠ []) :
    splitTrimDrop (joinSep [',', ' '] (splitTrimDrop s)) = splitTrimDrop s :=
  splitTrimDrop_joinSep (splitTrimDrop s)
    (fun x hx => splitTrimDrop_mem_props s x hx) h

/-- Witness for C8: the concrete keyword string " a, b ,, c". -/
theorem splitTrimDrop_idem_witness :
    splitTrimDrop " a, b ,, c".data ≠ [] ∧
    splitTrimDrop (joinSep [',', ' '] (splitTrimDrop " a, b ,, c".data)) =
      splitTrimDrop " a, b ,, c".data :=
  ⟨by decide, splitTrimDrop_idem " a, b ,, c".data (by decide)⟩

/-- Claim C10: the inline `embed_metadata` of `lib.rs` and the modular
`embed_metadata` of `commands/metadata.rs` agree on every environment,
process outcome and request: same result and same spawned command. -/
theorem lib_embed_metadata_eq_embed_metadata (env : Env) (proc : ProcOracle)
    (request : EmbedMetadataRequest) :
    lib_embed_metadata env proc request = embed_metadata env proc request := by
  obtain ⟨file_path, title, description, keywords⟩ := request
  unfold lib_embed_metadata embed_metadata validate_file has_metadata
    execute_exiftool build_exiftool_command
  cases hE : env.fs.pathExists file_path <;> cases hF : env.fs.isFile file_path <;>
    cases title <;> cases description <;> cases keywords <;> rfl

/-- Claim C7: when title and description are both present and non-blank
after trimming, the argument list carries the EXIF image-description
assignment with the title value at an earlier position and with the
description value at a later position, so the description is applied
last for that tag. -/
theorem build_exiftool_command_description_after_title (exiftool_path file_path : String)
    (title description : String) (keywords : Option String)
    (ht : rustTrim title ≠ "") (hd : rustTrim description ≠ "") :
    ∃ i j : Nat, i < j ∧
      (build_exiftool_command exiftool_path
        ⟨file_path, some title, some description, keywords⟩).args[i]? =
        some ("-EXIF:ImageDescription=" ++ title) ∧
      (build_exiftool_command exiftool_path
        ⟨file_path, some title, some description, keywords⟩).args[j]? =
        some ("-EXIF:ImageDescription=" ++ description) := by
  refine ⟨2, 4, by omega, ?_, ?_⟩ <;>
    simp [build_exiftool_command, ht, hd]

/-- Witness for C7: a concrete request carrying both a title and a
description. -/
theorem build_exiftool_command_description_after_title_witness :
    ∃ i j : Nat, i < j ∧
      (build_exiftool_command "exiftool"
        ⟨"f.jpg", some "T", some "D", none⟩).args[i]? =
        some ("-EXIF:ImageDescription=" ++ "T") ∧
      (build_exiftool_command "exiftool"
        ⟨"f.jpg", some "T", some "D", none⟩).args[j]? =
        some ("-EXIF:ImageDescription=" ++ "D") :=
  build_exiftool_command_description_after_title "exiftool" "f.jpg" "T" "D" none
    (by decide) (by decide)

/-- Claim C6: when the read-path tool output parses as the empty JSON
array, `read_exif_metadata` returns `Ok` with the input path and all
three fields absent; when the output fails to parse, it returns a hard
error instead. -/
theorem read_exif_metadata_empty_array_or_parse_error (env : Env)
    (parseJson : String → Except String Json) (output : ProcOutput) (file_path : String)
    (hex : env.fs.pathExists file_path = true) (hf : env.fs.isFile file_path = true)
    (hc : output.exitCode = some 0) :
    (parseJson output.stdout = .ok (Json.arr []) →
      (read_exif_metadata env parseJson (.ok output) file_path).result =
        .ok ⟨file_path, none, none, none⟩) ∧
    (∀ e, parseJson output.stdout = .error e →
      (read_exif_metadata env parseJson (.ok output) file_path).result =
        .error ("Failed to parse ExifTool output: " ++ e)) := by
  constructor
  · intro hp
    simp [read_exif_metadata, hex, hf, hc, hp, Json.asArray]
  · intro e hp
    simp [read_exif_metadata, hex, hf, hc, hp]

/-- Witness for C6: a concrete read over an oracle whose stdout "[]"
parses to the empty array and whose stdout "bogus" fails to parse. -/
theorem read_exif_metadata_empty_array_or_parse_error_witness :
    (read_exif_metadata ⟨⟨fun _ => true, fun _ => true⟩, .error (), false⟩
        (fun s => if s == "[]" then .ok (Json.arr []) else .error "expected value")
        (.ok ⟨some 0, "[]", ""⟩) "p.jpg").result =
      .ok ⟨"p.jpg", none, none, none⟩ ∧
    (read_exif_metadata ⟨⟨fun _ => true, fun _ => true⟩, .error (), false⟩
        (fun s => if s == "[]" then .ok (Json.arr []) else .error "expected value")
        (.ok ⟨some 0, "bogus", ""⟩) "p.jpg").result =
      .error ("Failed to parse ExifTool output: " ++ "expected value") :=
  ⟨(read_exif_metadata_empty_array_or_parse_error _ _ ⟨some 0, "[]", ""⟩ "p.jpg"
      rfl rfl rfl).1 rfl,
   (read_exif_metadata_empty_array_or_parse_error _ _ ⟨some 0, "bogus", ""⟩ "p.jpg"
      rfl rfl rfl).2 "expected value" rfl⟩

/-- Counterexample for C3: the probed keywords value
`"XMP:Subject": []` is a JSON array, whose entries joined with ", "
form the empty string, yet the normalizer yields an absent keywords
field rather than that joined string. -/
theorem extractKeywords_empty_array_counterexample :
    keywordCandidate (Json.obj [("XMP:Subject", Json.arr [])]) = some (Json.arr []) ∧
    extractKeywords (Json.obj [("XMP:Subject", Json.arr [])]) = none ∧
    extractKeywords (Json.obj [("XMP:Subject", Json.arr [])]) ≠
      some (String.intercalate ", " []) :=
  ⟨rfl, rfl, by
    rw [show extractKeywords (Json.obj [("XMP:Subject", Json.arr [])]) = none from rfl]
    simp⟩

/-- Claim C3 as amended: for the first present candidate of the keywords
probe chain, an array value yields its string entries joined with ", "
when at least one entry is a string and absence otherwise (so also for
the empty array), a string value is used verbatim, and any other value
type yields absence. -/
theorem extractKeywords_characterization (metadata v : Json)
    (h : keywordCandidate metadata = some v) :
    (∀ elems, v = Json.arr elems →
      extractKeywords metadata =
        (if (elems.filterMap Json.asStr).isEmpty then none
         else some (String.intercalate ", " (elems.filterMap Json.asStr)))) ∧
    (∀ s, v = Json.str s → extractKeywords metadata = some s) ∧
    (v.asArray = none → v.asStr = none → extractKeywords metadata = none) := by
  refine ⟨?_, ?_, ?_⟩
  · rintro elems rfl
    unfold extractKeywords
    rw [h]
    cases hkw : (elems.filterMap Json.asStr).isEmpty <;>
      simp [Option.some_bind, Json.asArray, hkw] <;> simpa using hkw
  · rintro s rfl
    simp [extractKeywords, h, Json.asArray, Json.asStr]
  · intro ha hs
    simp [extractKeywords, h, ha, hs]

/-- Witness for C3's amended theorem: a concrete object carrying a
three-string subject array, joined to "x, y, z". -/
theorem extractKeywords_characterization_witness :
    extractKeywords
      (Json.obj [("XMP:Subject", Json.arr [Json.str "x", Json.str "y", Json.str "z"])]) =
      some "x, y, z" :=
  ((extractKeywords_characterization
      (Json.obj [("XMP:Subject", Json.arr [Json.str "x", Json.str "y", Json.str "z"])])
      (Json.arr [Json.str "x", Json.str "y", Json.str "z"]) rfl).1
    [Json.str "x", Json.str "y", Json.str "z"] rfl).trans (by rfl)

/-- Claim C9: `embed_metadata` never produces the `Err` variant: for
every environment, process outcome and request, its result is `Ok`. -/
theorem embed_metadata_total (env : Env) (proc : ProcOracle)
    (request : EmbedMetadataRequest) :
    ∃ r : EmbedMetadataResult, (embed_metadata env proc request).result = .ok r := by
  unfold embed_metadata
  cases hv : validate_file env.fs request.file_path with
  | some error_result => exact ⟨error_result, rfl⟩
  | none =>
    by_cases hm : has_metadata request
    · simp only [hm]
      unfold execute_exiftool
      cases proc with
      | ok output =>
        by_cases hc : output.exitCode == some 0 <;> simp [hc]
      | error e => simp
    · simp [hm]
